import Mathlib

/-!
# proc_check: the process exporter, embedded in Lean

A shallow embedding of `proc_check.go`: the four metric descriptors, the
collector's methods `Describe` and `Collect`, and `main`.

* A Go string is its sequence of bytes; nothing makes it valid UTF-8.
* The channel `ch` is the list of metric points sent so far, oldest first.
* Each call into gopsutil (`Processes`, `Cmdline`, `Name`, `CPUPercent`,
  `MemoryInfo`, `CmdlineSlice`) is made once per scrape and process; its Go
  result pair `(value, err)` is a field of the enumerated process.
* `prometheus.MustNewConstMetric` panics when a label value is not valid
  UTF-8; a panic ends `Collect` at once, with the points sent until then.
* `flag.Parse` ends the process itself on a command line it does not accept.
* `float64` values are kept by the number they denote.
-/

namespace ProcCheck

/-! ## Go values -/

/-- A Go string: a sequence of bytes. -/
abbrev GoString := List UInt8

/-- The Go string of a string constant of the source: its UTF-8 encoding. -/
def lit (s : String) : GoString := s.data.flatMap String.utf8EncodeChar

/-- Go `float64` values, kept by denotation: a finite number, an infinity or NaN. -/
inductive Float64 where
  | finite (q : ℚ)
  | inf (negative : Bool)
  | nan
deriving DecidableEq

/-- Conversion `float64(u)` of an unsigned integer: rounding to 53 significant bits,
ties to even. The result is again an integer. -/
def roundToFloat64 (u : Nat) : Nat :=
  let ulp := 2 ^ (Nat.log2 u - 52)
  let q := u / ulp
  let rem := u % ulp
  if 2 * rem > ulp ∨ (2 * rem = ulp ∧ q % 2 = 1) then (q + 1) * ulp else q * ulp

/-- Go `float64(u)` for `u : uint64`. -/
def float64OfUint64 (u : Nat) : Float64 :=
  Float64.finite (roundToFloat64 u : ℚ)

/-- A Go result pair `(value, err)`; `err = none` is Go's `err == nil`. -/
structure Ret (α : Type) where
  val : α
  err : Option String
deriving DecidableEq

/-- A successful call. -/
def Ret.ok {α : Type} (a : α) : Ret α := ⟨a, none⟩

/-- A failed call: an error, together with whatever value came along. -/
def Ret.fail {α : Type} (a : α) (e : String) : Ret α := ⟨a, some e⟩

/-- The byte of the decimal digit `'0' + d`. -/
def digitByte (d : Nat) : UInt8 := UInt8.ofNat (48 + d)

/-- Decimal formatting loop of `strconv`: peel off the last digit while `u >= 10`,
writing digits right to left in front of `acc`. The first argument bounds the
number of rounds. -/
def formatBits : Nat → Nat → GoString → GoString
  | 0, u, acc => digitByte u :: acc
  | fuel + 1, u, acc =>
    if u ≥ 10 then formatBits fuel (u / 10) (digitByte (u % 10) :: acc)
    else digitByte u :: acc

/-- Decimal rendering of a natural number. -/
def formatNat (u : Nat) : GoString := formatBits u u []

/-- Go `fmt.Sprintf("%d", n)`; byte 45 is the minus sign. -/
def Sprintf_d (n : Int) : GoString :=
  match n with
  | Int.ofNat u => formatNat u
  | Int.negSucc u => 45 :: formatNat (u + 1)

/-- Whether `s` starts with `sub`. -/
def startsWith : GoString → GoString → Bool
  | _, [] => true
  | [], _ :: _ => false
  | a :: s, b :: sub => decide (a = b) && startsWith s sub

/-- Left to right search for an occurrence of `sub` in `s`. -/
def containsBytes : GoString → GoString → Bool
  | [], sub => startsWith [] sub
  | c :: s, sub => startsWith (c :: s) sub || containsBytes s sub

/-- Go `strings.Contains(s, substr)`. -/
def strings_Contains (s substr : GoString) : Bool :=
  containsBytes s substr

/-- One step of the UTF-8 check. The state is the number of continuation bytes still
due and the range the next byte has to lie in; `none` is the rejecting state. The
lead bytes and the ranges of the second byte are those of well-formed UTF-8: no
overlong forms, no surrogates, nothing above U+10FFFF. -/
def utf8Step : Option (Nat × UInt8 × UInt8) → UInt8 → Option (Nat × UInt8 × UInt8)
  | none, _ => none
  | some (0, _, _), b =>
    if b < 0x80 then some (0, 0x80, 0xBF)
    else if 0xC2 ≤ b ∧ b ≤ 0xDF then some (1, 0x80, 0xBF)
    else if b = 0xE0 then some (2, 0xA0, 0xBF)
    else if b = 0xED then some (2, 0x80, 0x9F)
    else if 0xE1 ≤ b ∧ b ≤ 0xEF then some (2, 0x80, 0xBF)
    else if b = 0xF0 then some (3, 0x90, 0xBF)
    else if 0xF1 ≤ b ∧ b ≤ 0xF3 then some (3, 0x80, 0xBF)
    else if b = 0xF4 then some (3, 0x80, 0x8F)
    else none
  | some (n + 1, lo, hi), b =>
    if lo ≤ b ∧ b ≤ hi then some (n, 0x80, 0xBF) else none

/-- Go `utf8.ValidString(s)`. -/
def utf8_ValidString (s : GoString) : Bool :=
  match s.foldl utf8Step (some (0, 0x80, 0xBF)) with
  | some (0, _, _) => true
  | _ => false

/-! ## Prometheus values -/

/-- A metric descriptor: `prometheus.NewDesc(fqName, help, variableLabels, nil)`. -/
structure Desc where
  fqName : String
  help : String
  variableLabels : List String
deriving DecidableEq

/-- The value types of the Prometheus client. -/
inductive ValueType where
  | CounterValue
  | GaugeValue
  | UntypedValue
deriving DecidableEq

/-- A constant metric point as built by `prometheus.MustNewConstMetric`. -/
structure Metric where
  desc : Desc
  valueType : ValueType
  value : Float64
  labelValues : List GoString
deriving DecidableEq

/-- Why the Prometheus client refuses label values: their number differs from the
number of labels of the descriptor, or one of them is not valid UTF-8. -/
inductive LabelError where
  | inconsistentCardinality
  | invalidUTF8 (val : GoString)
deriving DecidableEq

/-- The check of label values in the Prometheus client: first their number, then each
value in order. -/
def validateLabelValues (vals : List GoString) (expectedNumberOfValues : Nat) :
    Except LabelError Unit :=
  if vals.length ≠ expectedNumberOfValues then
    Except.error LabelError.inconsistentCardinality
  else
    match vals.find? (fun val => !utf8_ValidString val) with
    | some val => Except.error (LabelError.invalidUTF8 val)
    | none => Except.ok ()

/-- The call `prometheus.MustNewConstMetric(desc, valueType, value, labelValues...)`;
`Except.error` is its panic. The four descriptors of this program are well formed, so
the label values are all that can be refused. -/
def MustNewConstMetric (desc : Desc) (valueType : ValueType) (value : Float64)
    (labelValues : List GoString) : Except LabelError Metric :=
  match validateLabelValues labelValues desc.variableLabels.length with
  | Except.error e => Except.error e
  | Except.ok _ =>
    Except.ok
      { desc := desc, valueType := valueType, value := value, labelValues := labelValues }

/-! ## The descriptors of `proc_check.go` -/

def processExists : Desc :=
  { fqName := "process_exists"
    help := "Whether the process exists (1 = exists, 0 = does not)"
    variableLabels := ["pid", "name"] }

def processCPU : Desc :=
  { fqName := "process_cpu_usage"
    help := "CPU usage percentage of the process"
    variableLabels := ["pid", "name"] }

def processMemory : Desc :=
  { fqName := "process_memory_usage_bytes"
    help := "Memory usage of the process in bytes"
    variableLabels := ["pid", "name"] }

def processArg : Desc :=
  { fqName := "process_arg"
    help := "Command-line arguments of the process"
    variableLabels := ["pid", "name", "index", "value"] }

/-! ## gopsutil values -/

/-- The part of gopsutil's `MemoryInfoStat` that the exporter reads: `RSS`, a `uint64`. -/
structure MemoryInfoStat where
  RSS : Nat
deriving DecidableEq

/-- One entry of `process.Processes()`: the `Pid` field (an `int32`) and the result of
each method the collector calls on it. -/
structure Process where
  Pid : Int
  Cmdline : Ret GoString
  Name : Ret GoString
  CPUPercent : Ret Float64
  MemoryInfo : Ret MemoryInfoStat
  CmdlineSlice : Ret (List GoString)
deriving DecidableEq

/-! ## The collector -/

/-- The collector: `type ProcessCollector struct { processName string }`. -/
structure ProcessCollector where
  processName : GoString
deriving DecidableEq

/-- The method `Describe`: the descriptors it sends, in order. -/
def Describe (_c : ProcessCollector) : List Desc :=
  [processExists, processCPU, processMemory, processArg]

/-- The variables of `Collect` that its loop changes: the points sent on `ch` so far and
the flag `processFound`. -/
structure LoopState where
  ch : List Metric
  processFound : Bool
deriving DecidableEq

/-- A panic inside `Collect`: the points sent on `ch` before it, and its cause. -/
structure Panic where
  ch : List Metric
  err : LabelError
deriving DecidableEq

/-- The statement `ch <- prometheus.MustNewConstMetric(...)`: the point is built first,
which may panic, and is then sent. -/
def LoopState.send (st : LoopState) (m : Except LabelError Metric) : Except Panic LoopState :=
  match m with
  | Except.ok m => Except.ok { st with ch := st.ch ++ [m] }
  | Except.error e => Except.error { ch := st.ch, err := e }

/-- The inner loop `for i, arg := range args`, entered with index `i`. -/
def argLoop (pid name : GoString) : Nat → List GoString → LoopState → Except Panic LoopState
  | _, [], st => Except.ok st
  | i, arg :: rest, st =>
    match st.send (MustNewConstMetric processArg ValueType.GaugeValue (Float64.finite 1)
        [pid, name, Sprintf_d (Int.ofNat i), arg]) with
    | Except.error e => Except.error e
    | Except.ok st => argLoop pid name (i + 1) rest st

/-- One round of the loop `for _, p := range processes` of `Collect`. -/
def loopBody (c : ProcessCollector) (st : LoopState) (p : Process) : Except Panic LoopState :=
  if p.Cmdline.err.isSome || !strings_Contains p.Cmdline.val c.processName then
    pure st
  else do
    let st := { st with processFound := true }
    let pid := Sprintf_d p.Pid
    let name := p.Name.val
    let st ← st.send
      (MustNewConstMetric processExists ValueType.GaugeValue (Float64.finite 1) [pid, name])
    let st ←
      if p.CPUPercent.err.isNone then
        st.send (MustNewConstMetric processCPU ValueType.GaugeValue p.CPUPercent.val [pid, name])
      else pure st
    let st ←
      if p.MemoryInfo.err.isNone then
        st.send (MustNewConstMetric processMemory ValueType.GaugeValue
          (float64OfUint64 p.MemoryInfo.val.RSS) [pid, name])
      else pure st
    let st ←
      if p.CmdlineSlice.err.isNone then argLoop pid name 0 p.CmdlineSlice.val st
      else pure st
    pure st

/-- The state in which the loop of `Collect` starts. -/
def initState : LoopState := { ch := [], processFound := false }

/-- The body of `Collect` after a successful enumeration: the loop over the processes,
then the "not found" point if `processFound` is still false. -/
def collectLoop (c : ProcessCollector) (processes : List Process) : Except Panic LoopState := do
  let st ← processes.foldlM (loopBody c) initState
  if !st.processFound then
    st.send (MustNewConstMetric processExists ValueType.GaugeValue (Float64.finite 0)
      [lit "", lit ""])
  else pure st

/-- How a call of `Collect` ends: the points it sent on `ch`, in order, and the panic
that ended it, if any (`none`: `Collect` returned). -/
structure Outcome where
  sent : List Metric
  panic : Option LabelError
deriving DecidableEq

/-- The method `Collect`; `processes` is the result of `process.Processes()`. -/
def Collect (c : ProcessCollector) (processes : Ret (List Process)) : Outcome :=
  if processes.err.isSome then
    { sent := [], panic := none }
  else
    match collectLoop c processes.val with
    | Except.ok st => { sent := st.ch, panic := none }
    | Except.error e => { sent := e.ch, panic := some e.err }

/-! ## `main` -/

/-- Why `flag.Parse` refuses a command line. -/
inductive FlagError where
  | badSyntax (arg : GoString)
  | notDefined (name : GoString)
  | needsArgument (name : GoString)
deriving DecidableEq

/-- How `flag.Parse` ends for a program whose only flag is the string flag `process`:
it returns with the value of the flag, or it has seen `-h` or `-help`, or it refuses
the command line. -/
inductive ParseResult where
  | parsed (processName : GoString)
  | help
  | failed (err : FlagError)
deriving DecidableEq

/-- Splitting `name=value` at the first `=` (byte 61) that is not the first byte of the
flag name: the name, and the value if there is one. -/
def splitFlag : GoString → GoString × Option GoString
  | [] => ([], none)
  | b :: rest =>
    match rest.span (fun x => x ≠ 61) with
    | (name, []) => (b :: name, none)
    | (name, _ :: value) => (b :: name, some value)

/-- The loop of `flag.Parse` over the arguments after the program name. `value` is the
current value of the flag `process`; byte 45 is `-`. An argument that is shorter than
two bytes or does not start with `-` ends the flags, and so does `--`. -/
def parseArgs : GoString → List GoString → ParseResult
  | value, [] => ParseResult.parsed value
  | value, s :: rest =>
    if s.length < 2 ∨ s.head? ≠ some 45 then ParseResult.parsed value
    else if s = [45, 45] then ParseResult.parsed value
    else
      let name := if s.get? 1 = some 45 then s.drop 2 else s.drop 1
      if name = [] ∨ name.head? = some 45 ∨ name.head? = some 61 then
        ParseResult.failed (FlagError.badSyntax s)
      else
        match splitFlag name with
        | (name, given) =>
          if name ≠ lit "process" then
            if name = lit "help" ∨ name = lit "h" then ParseResult.help
            else ParseResult.failed (FlagError.notDefined name)
          else
            match given with
            | some v => parseArgs v rest
            | none =>
              match rest with
              | v :: rest => parseArgs v rest
              | [] => ParseResult.failed (FlagError.needsArgument name)

/-- The calls `flag.String("process", "", ...)` and `flag.Parse()`; `args` is
`os.Args[1:]`. -/
def flag_Parse (args : List GoString) : ParseResult := parseArgs (lit "") args

/-- What `main` does to the outside world, one constructor per library call:
`fmt.Println`, `os.Exit`, `prometheus.MustRegister`, `http.Handle` (with the handler of
`promhttp`), `fmt.Printf`, `http.ListenAndServe` and `log.Fatal` (which logs the error
and ends the process with status 1); `FlagUsage` is the flag package writing its error,
if any, and the list of flags. -/
inductive Event where
  | FlagUsage (err : Option FlagError)
  | Println (line : GoString)
  | Exit (code : Int)
  | MustRegister (collector : ProcessCollector)
  | Handle (pattern : String)
  | Printf (text : GoString)
  | ListenAndServe (addr : String)
  | Fatal (err : String)
deriving DecidableEq

/-- The function `main`, as the sequence of its effects. `args` is `os.Args[1:]`;
`serveErr` is the error `http.ListenAndServe` returns, or `none` when it keeps serving.
On `-h` or `-help` the flag package ends the process with status 0, on a command line
it refuses with status 2. -/
def main (args : List GoString) (serveErr : Option String) : List Event :=
  match flag_Parse args with
  | ParseResult.help => [Event.FlagUsage none, Event.Exit 0]
  | ParseResult.failed e => [Event.FlagUsage (some e), Event.Exit 2]
  | ParseResult.parsed processName =>
    if processName = lit "" then
      [Event.Println (lit "Usage: ./exporter -process <process_name>"), Event.Exit 1]
    else
      let collector : ProcessCollector := { processName := processName }
      [Event.MustRegister collector,
       Event.Handle "/metrics",
       Event.Printf (lit "Starting exporter on :8081/metrics for process '" ++ processName
         ++ lit "'\n"),
       Event.ListenAndServe ":8081"] ++
      (match serveErr with
       | some e => [Event.Fatal e]
       | none => [])

/-! ## Vocabulary of the specification -/

/-- The spec's matching relation: the command line was retrieved, and the filter occurs
in it as a contiguous run of bytes. -/
def Matches (c : ProcessCollector) (p : Process) : Prop :=
  p.Cmdline.err = none ∧ c.processName <:+: p.Cmdline.val

instance (c : ProcessCollector) (p : Process) : Decidable (Matches c p) := by
  unfold Matches
  infer_instance

/-- The label values `Collect` builds from what it read of a process are valid UTF-8:
the name, and every argument if the argument list was retrieved. -/
def LabelsValid (p : Process) : Prop :=
  utf8_ValidString p.Name.val = true
    ∧ (p.CmdlineSlice.err = none → ∀ arg ∈ p.CmdlineSlice.val, utf8_ValidString arg = true)

instance (p : Process) : Decidable (LabelsValid p) := by
  unfold LabelsValid
  infer_instance

/-- The value a point carries for the label called `name`: label values are paired with
the descriptor's label names by position. -/
def Metric.label (m : Metric) (name : String) : Option GoString :=
  (m.desc.variableLabels.zip m.labelValues).lookup name

/-- The `process_exists` point of a matched process. -/
def existsPoint (p : Process) : Metric :=
  { desc := processExists, valueType := ValueType.GaugeValue, value := Float64.finite 1,
    labelValues := [Sprintf_d p.Pid, p.Name.val] }

/-- The `process_exists` point that stands for "no process found". -/
def notFoundPoint : Metric :=
  { desc := processExists, valueType := ValueType.GaugeValue, value := Float64.finite 0,
    labelValues := [lit "", lit ""] }

/-- The `process_cpu_usage` points of a process: one if the retrieval succeeded. -/
def cpuPoints (p : Process) : List Metric :=
  if p.CPUPercent.err = none then
    [{ desc := processCPU, valueType := ValueType.GaugeValue, value := p.CPUPercent.val,
       labelValues := [Sprintf_d p.Pid, p.Name.val] }]
  else []

/-- The `process_memory_usage_bytes` points of a process: one if the retrieval succeeded. -/
def memPoints (p : Process) : List Metric :=
  if p.MemoryInfo.err = none then
    [{ desc := processMemory, valueType := ValueType.GaugeValue,
       value := float64OfUint64 p.MemoryInfo.val.RSS,
       labelValues := [Sprintf_d p.Pid, p.Name.val] }]
  else []

/-- The `process_arg` point of the argument `arg` at position `i`. -/
def argPoint (p : Process) (i : Nat) (arg : GoString) : Metric :=
  { desc := processArg, valueType := ValueType.GaugeValue, value := Float64.finite 1,
    labelValues := [Sprintf_d p.Pid, p.Name.val, Sprintf_d (Int.ofNat i), arg] }

/-- The `process_arg` points of a process: one per argument if the retrieval succeeded. -/
def argPoints (p : Process) : List Metric :=
  if p.CmdlineSlice.err = none then p.CmdlineSlice.val.mapIdx (argPoint p) else []

/-- The block of a matched process. -/
def block (p : Process) : List Metric :=
  existsPoint p :: (cpuPoints p ++ memPoints p ++ argPoints p)

/-- The digit a decimal byte stands for. -/
def byteDigit (b : UInt8) : Nat := b.toNat - 48

/-- Reading a decimal rendering back. -/
def parseNat (bs : GoString) : Nat := Nat.ofDigits 10 ((bs.map byteDigit).reverse)

/-! ## Sample processes -/

/-- A process running `foo-server --verbose`, every retrieval succeeding. -/
def fooProc : Process :=
  { Pid := 42, Cmdline := Ret.ok (lit "foo-server --verbose"), Name := Ret.ok (lit "foo-server"),
    CPUPercent := Ret.ok (Float64.finite 3), MemoryInfo := Ret.ok { RSS := 4096 },
    CmdlineSlice := Ret.ok [lit "a", lit "b", lit "c"] }

/-- A process whose command line is `barfoo`, every retrieval succeeding. -/
def barfooProc : Process :=
  { Pid := 7, Cmdline := Ret.ok (lit "barfoo"), Name := Ret.ok (lit "barfoo"),
    CPUPercent := Ret.ok (Float64.finite 3), MemoryInfo := Ret.ok { RSS := 4096 },
    CmdlineSlice := Ret.ok [lit "barfoo"] }

/-- A process that exited before its command line could be read. -/
def goneProc : Process :=
  { Pid := 99, Cmdline := Ret.fail (lit "") "no such process",
    Name := Ret.fail (lit "") "no such process",
    CPUPercent := Ret.fail Float64.nan "no such process",
    MemoryInfo := Ret.fail { RSS := 0 } "no such process",
    CmdlineSlice := Ret.fail [] "no such process" }

/-- A process running `foo` of which only the command line can be read. -/
def bareProc : Process :=
  { Pid := 43, Cmdline := Ret.ok (lit "foo"), Name := Ret.fail (lit "") "permission denied",
    CPUPercent := Ret.fail (Float64.finite 0) "permission denied",
    MemoryInfo := Ret.fail { RSS := 0 } "permission denied",
    CmdlineSlice := Ret.fail [] "permission denied" }

/-- A process running `foo-server --verbose` whose name is the single byte `0xff`, which
is not valid UTF-8; every retrieval succeeds. -/
def rawNameProc : Process :=
  { Pid := 44, Cmdline := Ret.ok (lit "foo-server --verbose"), Name := Ret.ok [0xff],
    CPUPercent := Ret.ok (Float64.finite 3), MemoryInfo := Ret.ok { RSS := 4096 },
    CmdlineSlice := Ret.ok [lit "foo-server", lit "--verbose"] }

/-- A process started as `foo` with the single byte `0xff` as its second argument; the
CPU and memory retrievals fail. -/
def rawArgProc : Process :=
  { Pid := 45, Cmdline := Ret.ok (lit "foo " ++ [0xff]), Name := Ret.ok (lit "foo"),
    CPUPercent := Ret.fail (Float64.finite 0) "permission denied",
    MemoryInfo := Ret.fail { RSS := 0 } "permission denied",
    CmdlineSlice := Ret.ok [lit "foo", [0xff]] }

/-- A process running `foo` whose name is the single byte `0xff` and of which the CPU,
memory and argument retrievals fail. -/
def rawBareProc : Process :=
  { Pid := 46, Cmdline := Ret.ok (lit "foo"), Name := Ret.ok [0xff],
    CPUPercent := Ret.fail (Float64.finite 0) "permission denied",
    MemoryInfo := Ret.fail { RSS := 0 } "permission denied",
    CmdlineSlice := Ret.fail [] "permission denied" }

/-! ## Substring search -/

theorem startsWith_iff (s sub : GoString) :
    startsWith s sub = true ↔ ∃ post, s = sub ++ post := by
  induction sub generalizing s with
  | nil => cases s <;> simp [startsWith]
  | cons b sub ih =>
    cases s with
    | nil => simp [startsWith]
    | cons a s =>
      simp only [startsWith, Bool.and_eq_true, decide_eq_true_eq, ih, List.cons_append,
        List.cons.injEq]
      constructor
      · rintro ⟨hab, post, hp⟩
        exact ⟨post, hab, hp⟩
      · rintro ⟨post, hab, hp⟩
        exact ⟨hab, post, hp⟩

theorem containsBytes_iff (s sub : GoString) :
    containsBytes s sub = true ↔ sub <:+: s := by
  induction s with
  | nil =>
    simp only [containsBytes, startsWith_iff, List.IsInfix]
    constructor
    · rintro ⟨post, hp⟩
      exact ⟨[], post, by simpa using hp.symm⟩
    · rintro ⟨pre, post, hp⟩
      have h1 : pre = [] ∧ sub = [] ∧ post = [] := by
        simpa [and_assoc] using hp
      exact ⟨[], by simp [h1.2.1]⟩
  | cons c s ih =>
    simp only [containsBytes, Bool.or_eq_true, startsWith_iff, ih, List.IsInfix]
    constructor
    · rintro (⟨post, hp⟩ | ⟨pre, post, hp⟩)
      · exact ⟨[], post, by simpa using hp.symm⟩
      · exact ⟨c :: pre, post, by simp [← hp]⟩
    · rintro ⟨pre, post, hp⟩
      cases pre with
      | nil => exact Or.inl ⟨post, by simpa using hp.symm⟩
      | cons a pre =>
        simp only [List.cons_append, List.cons.injEq] at hp
        exact Or.inr ⟨pre, post, hp.2⟩

/-! ## Decimal rendering -/

theorem byteDigit_digitByte {d : Nat} (hd : d < 10) : byteDigit (digitByte d) = d := by
  interval_cases d <;> rfl

theorem digitByte_ne_minus {d : Nat} (hd : d < 10) : digitByte d ≠ 45 := by
  interval_cases d <;> decide

theorem digitByte_ascii {d : Nat} (hd : d < 10) : digitByte d < 0x80 := by
  interval_cases d <;> decide

theorem formatBits_eq (fuel : Nat) : ∀ (u : Nat) (acc : GoString), u ≤ fuel → 0 < u →
    formatBits fuel u acc = ((Nat.digits 10 u).reverse.map digitByte) ++ acc := by
  induction fuel with
  | zero => intro u acc h1 h2; omega
  | succ fuel ih =>
    intro u acc h1 h2
    by_cases h10 : u ≥ 10
    · have hq : u / 10 ≤ fuel := by omega
      have hq0 : 0 < u / 10 := by omega
      rw [formatBits, if_pos h10, ih (u / 10) _ hq hq0, Nat.digits_def' (by norm_num) h2]
      simp
    · rw [formatBits, if_neg h10, Nat.digits_of_lt 10 u (by omega) (by omega)]
      simp

theorem formatNat_eq {u : Nat} (hu : 0 < u) :
    formatNat u = (Nat.digits 10 u).reverse.map digitByte := by
  simpa using formatBits_eq u u [] le_rfl hu

theorem formatNat_zero : formatNat 0 = [digitByte 0] := rfl

theorem formatNat_digits (u : Nat) : ∀ b ∈ formatNat u, ∃ d, d < 10 ∧ b = digitByte d := by
  intro b hb
  rcases Nat.eq_zero_or_pos u with h0 | hpos
  · subst h0
    rw [formatNat_zero] at hb
    exact ⟨0, by norm_num, by simpa using hb⟩
  · rw [formatNat_eq hpos] at hb
    simp only [List.mem_map, List.mem_reverse] at hb
    obtain ⟨d, hd, rfl⟩ := hb
    exact ⟨d, Nat.digits_lt_base (by norm_num) hd, rfl⟩

theorem parseNat_formatNat (u : Nat) : parseNat (formatNat u) = u := by
  rcases Nat.eq_zero_or_pos u with h0 | hpos
  · subst h0
    simp [formatNat_zero, parseNat, byteDigit_digitByte]
  · have hmap : ((Nat.digits 10 u).reverse.map digitByte).map byteDigit
        = (Nat.digits 10 u).reverse := by
      rw [List.map_map]
      conv_rhs => rw [← List.map_id (Nat.digits 10 u).reverse]
      apply List.map_congr_left
      intro d hd
      exact byteDigit_digitByte (Nat.digits_lt_base (by norm_num) (List.mem_reverse.mp hd))
    rw [formatNat_eq hpos, parseNat, hmap, List.reverse_reverse, Nat.ofDigits_digits]

theorem formatNat_injective {u v : Nat} (h : formatNat u = formatNat v) : u = v := by
  have := congrArg parseNat h
  simpa [parseNat_formatNat] using this

theorem formatNat_ne_minus (u : Nat) (l : GoString) : formatNat u ≠ 45 :: l := by
  intro h
  obtain ⟨d, hd, hb⟩ := formatNat_digits u 45 (by rw [h]; exact List.mem_cons_self _ _)
  exact digitByte_ne_minus hd hb.symm

theorem Sprintf_d_injective {m n : Int} (h : Sprintf_d m = Sprintf_d n) : m = n := by
  cases m with
  | ofNat u =>
    cases n with
    | ofNat v =>
      simp only [Sprintf_d] at h
      rw [formatNat_injective h]
    | negSucc v =>
      simp only [Sprintf_d] at h
      exact absurd h (formatNat_ne_minus u _)
  | negSucc u =>
    cases n with
    | ofNat v =>
      simp only [Sprintf_d] at h
      exact absurd h.symm (formatNat_ne_minus v _)
    | negSucc v =>
      simp only [Sprintf_d, List.cons.injEq, true_and] at h
      have := formatNat_injective h
      have huv : u = v := by omega
      rw [huv]

theorem Sprintf_d_ascii (n : Int) : ∀ b ∈ Sprintf_d n, b < 0x80 := by
  have hnat : ∀ u : Nat, ∀ b ∈ formatNat u, b < 0x80 := by
    intro u b hb
    obtain ⟨d, hd, rfl⟩ := formatNat_digits u b hb
    exact digitByte_ascii hd
  intro b hb
  cases n with
  | ofNat u => exact hnat u b hb
  | negSucc u =>
    simp only [Sprintf_d, List.mem_cons] at hb
    rcases hb with hb | hb
    · rw [hb]; decide
    · exact hnat _ b hb

/-! ## UTF-8 -/

theorem utf8Step_ascii {b : UInt8} (hb : b < 0x80) (lo hi : UInt8) :
    utf8Step (some (0, lo, hi)) b = some (0, 0x80, 0xBF) := by
  simp [utf8Step, hb]

theorem foldl_utf8Step_ascii (s : GoString) (hs : ∀ b ∈ s, b < 0x80) :
    s.foldl utf8Step (some (0, 0x80, 0xBF)) = some (0, 0x80, 0xBF) := by
  induction s with
  | nil => rfl
  | cons b s ih =>
    rw [List.foldl_cons, utf8Step_ascii (hs b (List.mem_cons_self _ _))]
    exact ih (fun x hx => hs x (List.mem_cons_of_mem _ hx))

theorem utf8_ValidString_of_ascii (s : GoString) (hs : ∀ b ∈ s, b < 0x80) :
    utf8_ValidString s = true := by
  unfold utf8_ValidString
  rw [foldl_utf8Step_ascii s hs]

theorem utf8_ValidString_Sprintf_d (n : Int) : utf8_ValidString (Sprintf_d n) = true :=
  utf8_ValidString_of_ascii _ (Sprintf_d_ascii n)

/-! ## Conversion to float64 -/

theorem roundToFloat64_exact {u : Nat} (hu : u < 2 ^ 53) : roundToFloat64 u = u := by
  have hlog : Nat.log2 u - 52 = 0 := by
    rcases Nat.eq_zero_or_pos u with h0 | hpos
    · subst h0
      simp [Nat.log2]
    · have := (Nat.log2_lt (Nat.pos_iff_ne_zero.mp hpos)).mpr hu
      omega
  simp [roundToFloat64, hlog, Nat.mod_one]

theorem log2_two_pow_53_succ : Nat.log2 (2 ^ 53 + 1) = 53 := by
  have h1 : Nat.log2 (2 ^ 53 + 1) < 54 := (Nat.log2_lt (by norm_num)).mpr (by norm_num)
  have h2 : ¬ Nat.log2 (2 ^ 53 + 1) < 53 := fun h =>
    absurd ((Nat.log2_lt (by norm_num)).mp h) (by norm_num)
  omega

/-- Above `2^53` the conversion does round: `2^53 + 1` becomes `2^53`. -/
theorem roundToFloat64_rounds : roundToFloat64 (2 ^ 53 + 1) = 2 ^ 53 := by
  unfold roundToFloat64
  simp only [log2_two_pow_53_succ]
  norm_num

/-! ## Building points -/

theorem validateLabelValues_ok {vals : List GoString} {n : Nat} (hlen : vals.length = n)
    (hval : ∀ v ∈ vals, utf8_ValidString v = true) :
    validateLabelValues vals n = Except.ok () := by
  unfold validateLabelValues
  rw [if_neg (by simpa using hlen)]
  have hnone : vals.find? (fun val => !utf8_ValidString val) = none := by
    rw [List.find?_eq_none]
    intro v hv
    simp [hval v hv]
  rw [hnone]

theorem MustNewConstMetric_ok (desc : Desc) {labelValues : List GoString}
    (hlen : labelValues.length = desc.variableLabels.length)
    (hval : ∀ v ∈ labelValues, utf8_ValidString v = true) (valueType : ValueType)
    (value : Float64) :
    MustNewConstMetric desc valueType value labelValues
      = Except.ok { desc := desc, valueType := valueType, value := value,
                    labelValues := labelValues } := by
  unfold MustNewConstMetric
  rw [validateLabelValues_ok hlen hval]

theorem send_ok {st : LoopState} {r : Except LabelError Metric} {m : Metric}
    (h : r = Except.ok m) : st.send r = Except.ok { st with ch := st.ch ++ [m] } := by
  rw [h]
  rfl

theorem send_error {st : LoopState} {r : Except LabelError Metric} {e : LabelError}
    (h : r = Except.error e) : st.send r = Except.error { ch := st.ch, err := e } := by
  rw [h]
  rfl

/-- A name that is not valid UTF-8 makes the first call of `MustNewConstMetric` in a
round panic. -/
theorem MustNewConstMetric_name_invalid (pid : Int) (name : GoString)
    (h : utf8_ValidString name = false) (desc : Desc) (hdesc : desc.variableLabels.length = 2)
    (valueType : ValueType) (value : Float64) :
    MustNewConstMetric desc valueType value [Sprintf_d pid, name]
      = Except.error (LabelError.invalidUTF8 name) := by
  unfold MustNewConstMetric validateLabelValues
  rw [if_neg (by simp [hdesc])]
  simp [List.find?, utf8_ValidString_Sprintf_d, h]

/-! ## The loop of `Collect` -/

theorem matched_iff (c : ProcessCollector) (p : Process) :
    (p.Cmdline.err.isSome || !strings_Contains p.Cmdline.val c.processName) = false
      ↔ Matches c p := by
  unfold Matches strings_Contains
  rw [← containsBytes_iff]
  cases h : p.Cmdline.err <;> simp

theorem argLoop_eq (p : Process) (hname : utf8_ValidString p.Name.val = true)
    (args : List GoString) :
    (∀ arg ∈ args, utf8_ValidString arg = true) → ∀ (i : Nat) (st : LoopState),
      argLoop (Sprintf_d p.Pid) p.Name.val i args st
        = Except.ok
            { st with ch := st.ch ++ args.mapIdx (fun j arg => argPoint p (i + j) arg) } := by
  induction args with
  | nil => intro _ i st; simp [argLoop]
  | cons a rest ih =>
    intro hargs i st
    have hshift : (fun j arg => argPoint p (i + 1 + j) arg)
        = (fun j arg => argPoint p (i + (j + 1)) arg) := by
      funext j arg
      rw [Nat.add_assoc, Nat.add_comm 1 j]
    have hpt : MustNewConstMetric processArg ValueType.GaugeValue (Float64.finite 1)
        [Sprintf_d p.Pid, p.Name.val, Sprintf_d (Int.ofNat i), a]
          = Except.ok (argPoint p i a) := by
      apply MustNewConstMetric_ok _ rfl
      intro v hv
      simp only [List.mem_cons, List.mem_singleton, List.not_mem_nil, or_false] at hv
      rcases hv with rfl | rfl | rfl | rfl
      · exact utf8_ValidString_Sprintf_d _
      · exact hname
      · exact utf8_ValidString_Sprintf_d _
      · exact hargs _ (List.mem_cons_self _ _)
    rw [argLoop, send_ok hpt]
    dsimp only
    rw [ih (fun arg h => hargs arg (List.mem_cons_of_mem _ h)), List.mapIdx_cons, hshift]
    simp

theorem valid_pid_name (p : Process) (hname : utf8_ValidString p.Name.val = true) :
    ∀ v ∈ [Sprintf_d p.Pid, p.Name.val], utf8_ValidString v = true := by
  intro v hv
  simp only [List.mem_cons, List.mem_singleton, List.not_mem_nil, or_false] at hv
  rcases hv with rfl | rfl
  · exact utf8_ValidString_Sprintf_d _
  · exact hname

/-- A round on a matched process whose label values are valid UTF-8 sends the block of
the process and sets `processFound`. -/
theorem loopBody_of_matches {c : ProcessCollector} {p : Process} (h : Matches c p)
    (hv : LabelsValid p) (st : LoopState) :
    loopBody c st p = Except.ok { ch := st.ch ++ block p, processFound := true } := by
  have hm := (matched_iff c p).mpr h
  have hl := valid_pid_name p hv.1
  have h0 : (fun j arg => argPoint p (0 + j) arg) = argPoint p := by
    funext j arg
    rw [Nat.zero_add]
  have hargs : p.CmdlineSlice.err = none → ∀ st' : LoopState,
      argLoop (Sprintf_d p.Pid) p.Name.val 0 p.CmdlineSlice.val st'
        = Except.ok { st' with ch := st'.ch ++ p.CmdlineSlice.val.mapIdx (argPoint p) } := by
    intro ha st'
    rw [argLoop_eq p hv.1 _ (hv.2 ha), h0]
  unfold loopBody
  rw [hm]
  simp only [Bool.false_eq_true, if_false]
  rw [send_ok (MustNewConstMetric_ok processExists rfl hl _ _)]
  simp only [bind, Except.bind, pure, Except.pure]
  unfold block cpuPoints memPoints argPoints existsPoint
  cases hc : p.CPUPercent.err <;> cases hmem : p.MemoryInfo.err <;>
    cases ha : p.CmdlineSlice.err <;>
    simp [send_ok (MustNewConstMetric_ok processCPU rfl hl _ _),
      send_ok (MustNewConstMetric_ok processMemory rfl hl _ _),
      hargs, ha, pure, Except.pure]

theorem loopBody_of_not_matches {c : ProcessCollector} {p : Process} (h : ¬ Matches c p)
    (st : LoopState) : loopBody c st p = Except.ok st := by
  have hm : (p.Cmdline.err.isSome || !strings_Contains p.Cmdline.val c.processName) = true := by
    cases hb : (p.Cmdline.err.isSome || !strings_Contains p.Cmdline.val c.processName)
    · exact absurd ((matched_iff c p).mp hb) h
    · rfl
  unfold loopBody
  rw [hm]
  rfl

/-- A round on a matched process whose name is not valid UTF-8 panics before anything is
sent. -/
theorem loopBody_name_invalid {c : ProcessCollector} {p : Process} (h : Matches c p)
    (hname : utf8_ValidString p.Name.val = false) (st : LoopState) :
    loopBody c st p
      = Except.error { ch := st.ch, err := LabelError.invalidUTF8 p.Name.val } := by
  have hm := (matched_iff c p).mpr h
  unfold loopBody
  rw [hm]
  simp only [Bool.false_eq_true, if_false]
  rw [send_error (MustNewConstMetric_name_invalid p.Pid p.Name.val hname processExists rfl _ _)]
  rfl

theorem foldlM_loopBody (c : ProcessCollector) (procs : List Process)
    (hv : ∀ p ∈ procs, Matches c p → LabelsValid p) :
    ∀ st : LoopState,
      procs.foldlM (loopBody c) st
        = Except.ok
            { ch := st.ch ++ (procs.filter (fun p => decide (Matches c p))).flatMap block
              processFound :=
                st.processFound || procs.any (fun p => decide (Matches c p)) } := by
  induction procs with
  | nil => intro st; simp [pure, Except.pure]
  | cons p rest ih =>
    intro st
    have hrest : ∀ q ∈ rest, Matches c q → LabelsValid q :=
      fun q hq => hv q (List.mem_cons_of_mem _ hq)
    rw [List.foldlM_cons]
    by_cases h : Matches c p
    · rw [loopBody_of_matches h (hv p (List.mem_cons_self _ _) h)]
      simp only [bind, Except.bind]
      rw [ih hrest]
      simp [h, List.flatMap_cons]
    · rw [loopBody_of_not_matches h]
      simp only [bind, Except.bind]
      rw [ih hrest]
      simp [h]

theorem foldlM_loopBody_of_no_match (c : ProcessCollector) (procs : List Process)
    (hno : ∀ p ∈ procs, ¬ Matches c p) (st : LoopState) :
    procs.foldlM (loopBody c) st = Except.ok st := by
  rw [foldlM_loopBody c procs (fun p hp hm => absurd hm (hno p hp))]
  have hf : procs.filter (fun p => decide (Matches c p)) = [] := by
    rw [List.filter_eq_nil_iff]
    intro p hp
    simpa using hno p hp
  have hany : procs.any (fun p => decide (Matches c p)) = false := by
    rw [List.any_eq_false]
    intro p hp
    simpa using hno p hp
  rw [hf, hany]
  simp

theorem notFound_ok :
    MustNewConstMetric processExists ValueType.GaugeValue (Float64.finite 0) [lit "", lit ""]
      = Except.ok notFoundPoint := by
  apply MustNewConstMetric_ok _ rfl
  decide

/-- `Collect` on a successful enumeration without a match. -/
theorem Collect_of_no_match {c : ProcessCollector} {processes : Ret (List Process)}
    (herr : processes.err = none) (h : ∀ p ∈ processes.val, ¬ Matches c p) :
    Collect c processes = { sent := [notFoundPoint], panic := none } := by
  unfold Collect collectLoop
  rw [herr, foldlM_loopBody_of_no_match c _ h]
  simp [bind, Except.bind, initState, send_ok notFound_ok]

/-- `Collect` on a successful enumeration with a match, the label values of the matched
processes being valid UTF-8. -/
theorem Collect_of_match {c : ProcessCollector} {processes : Ret (List Process)}
    (herr : processes.err = none) (h : ∃ p ∈ processes.val, Matches c p)
    (hv : ∀ p ∈ processes.val, Matches c p → LabelsValid p) :
    Collect c processes
      = { sent := (processes.val.filter (fun p => decide (Matches c p))).flatMap block
          panic := none } := by
  obtain ⟨p, hp, hm⟩ := h
  have hany : processes.val.any (fun p => decide (Matches c p)) = true := by
    rw [List.any_eq_true]
    exact ⟨p, hp, by simpa using hm⟩
  unfold Collect collectLoop
  rw [herr, foldlM_loopBody c _ hv]
  simp [bind, Except.bind, pure, Except.pure, initState, hany]

/-! ## Processes that do not match -/

theorem foldlM_loopBody_filter (c : ProcessCollector) (q : Process → Bool)
    (hq : ∀ p, q p = false → ¬ Matches c p) (l : List Process) :
    ∀ st : LoopState, (l.filter q).foldlM (loopBody c) st = l.foldlM (loopBody c) st := by
  induction l with
  | nil => intro st; rfl
  | cons p rest ih =>
    intro st
    cases hqp : q p with
    | true =>
      rw [List.filter_cons_of_pos hqp, List.foldlM_cons, List.foldlM_cons]
      congr 1
      funext st'
      exact ih st'
    | false =>
      rw [List.filter_cons_of_neg (by simp [hqp]), List.foldlM_cons,
        loopBody_of_not_matches (hq p hqp)]
      simp only [bind, Except.bind]
      exact ih st

theorem foldlM_loopBody_remove {c : ProcessCollector} {p : Process} (h : ¬ Matches c p)
    (pre post : List Process) (st : LoopState) :
    (pre ++ p :: post).foldlM (loopBody c) st = (pre ++ post).foldlM (loopBody c) st := by
  rw [List.foldlM_append, List.foldlM_append]
  congr 1
  funext st'
  rw [List.foldlM_cons, loopBody_of_not_matches h]
  rfl

theorem Collect_congr {c : ProcessCollector} {l₁ l₂ : List Process}
    (h : l₁.foldlM (loopBody c) initState = l₂.foldlM (loopBody c) initState) :
    Collect c { val := l₁, err := none } = Collect c { val := l₂, err := none } := by
  unfold Collect collectLoop
  dsimp only
  rw [h]

theorem Collect_remove_of_not_matches {c : ProcessCollector} {p : Process}
    (h : ¬ Matches c p) (pre post : List Process) :
    Collect c (Ret.ok (pre ++ p :: post)) = Collect c (Ret.ok (pre ++ post)) :=
  Collect_congr (foldlM_loopBody_remove h pre post initState)

/-! ## Blocks -/

theorem desc_of_mem_cpuPoints {p : Process} {m : Metric} (h : m ∈ cpuPoints p) :
    m.desc = processCPU := by
  unfold cpuPoints at h
  split at h
  · rw [List.mem_singleton] at h
    rw [h]
  · exact absurd h (List.not_mem_nil _)

theorem desc_of_mem_memPoints {p : Process} {m : Metric} (h : m ∈ memPoints p) :
    m.desc = processMemory := by
  unfold memPoints at h
  split at h
  · rw [List.mem_singleton] at h
    rw [h]
  · exact absurd h (List.not_mem_nil _)

theorem desc_of_mem_argPoints {p : Process} {m : Metric} (h : m ∈ argPoints p) :
    m.desc = processArg := by
  unfold argPoints at h
  split at h
  · obtain ⟨i, hi, rfl⟩ := List.mem_mapIdx.mp h
    rfl
  · exact absurd h (List.not_mem_nil _)

/-! ## The claims -/

/-- C1: on a successful enumeration in which no process has a retrieved command line that
contains the filter (the empty enumeration included), `Collect` returns after emitting
exactly one point: `process_exists` with value 0 and with the labels `pid` and `name`
present and empty; no point of another series is emitted. -/
theorem Collect_no_match (c : ProcessCollector) (processes : Ret (List Process))
    (herr : processes.err = none)
    (hno : ∀ p ∈ processes.val,
      ¬ (p.Cmdline.err = none ∧ c.processName <:+: p.Cmdline.val)) :
    Collect c processes
        = { sent := [{ desc := processExists, valueType := ValueType.GaugeValue,
                       value := Float64.finite 0, labelValues := [lit "", lit ""] }]
            panic := none }
      ∧ (∀ m ∈ (Collect c processes).sent,
          m.desc.fqName = "process_exists" ∧ m.value = Float64.finite 0
            ∧ m.label "pid" = some (lit "") ∧ m.label "name" = some (lit ""))
      ∧ (∀ m ∈ (Collect c processes).sent,
          m.desc ≠ processCPU ∧ m.desc ≠ processMemory ∧ m.desc ≠ processArg) := by
  have h := Collect_of_no_match herr hno
  rw [h]
  refine ⟨rfl, ?_, ?_⟩
  · intro m hm
    rw [List.mem_singleton] at hm
    subst hm
    exact ⟨rfl, rfl, rfl, rfl⟩
  · intro m hm
    rw [List.mem_singleton] at hm
    subst hm
    exact ⟨by decide, by decide, by decide⟩

theorem Collect_no_match_witness :
    (Ret.ok [barfooProc]).err = none
      ∧ (∀ p ∈ (Ret.ok [barfooProc]).val,
          ¬ (p.Cmdline.err = none
              ∧ (ProcessCollector.mk (lit "foo ")).processName <:+: p.Cmdline.val))
      ∧ Collect (ProcessCollector.mk (lit "foo ")) (Ret.ok [barfooProc])
          = { sent := [{ desc := processExists, valueType := ValueType.GaugeValue,
                         value := Float64.finite 0, labelValues := [lit "", lit ""] }]
              panic := none } :=
  ⟨rfl, by decide,
    (Collect_no_match (ProcessCollector.mk (lit "foo ")) (Ret.ok [barfooProc]) rfl
      (by decide)).1⟩

/-- C2, the code at a failing input: with the filter `foo`, the enumeration of `bareProc`,
`rawNameProc` and `fooProc` has pairwise distinct PIDs and three matched processes, but
`Collect` sends the `process_exists` point of the first only: building the point of the
second, whose name is not valid UTF-8, panics, and the third is never reached. -/
theorem Collect_exists_points_name_not_utf8 :
    (Ret.ok [bareProc, rawNameProc, fooProc]).err = none
      ∧ ((Ret.ok [bareProc, rawNameProc, fooProc]).val.map Process.Pid).Nodup
      ∧ ((Ret.ok [bareProc, rawNameProc, fooProc]).val.filter
            (fun p => decide (Matches (ProcessCollector.mk (lit "foo")) p))).length = 3
      ∧ Collect (ProcessCollector.mk (lit "foo")) (Ret.ok [bareProc, rawNameProc, fooProc])
          = { sent := [{ desc := processExists, valueType := ValueType.GaugeValue,
                         value := Float64.finite 1, labelValues := [lit "43", lit ""] }]
              panic := some (LabelError.invalidUTF8 [0xff]) }
      ∧ ((Collect (ProcessCollector.mk (lit "foo"))
            (Ret.ok [bareProc, rawNameProc, fooProc])).sent.filter
              (fun m => decide (m.desc = processExists))).length = 1 := by
  refine ⟨rfl, by decide, by decide, by decide, by decide⟩

/-- C3, the code at a failing input: the command line of `rawNameProc` was retrieved and
contains the filter `foo`, yet the round of the loop on it sends no point: it panics
while building the first one, because the name is not valid UTF-8. -/
theorem loopBody_matched_name_not_utf8 :
    (rawNameProc.Cmdline.err = none
        ∧ (ProcessCollector.mk (lit "foo")).processName <:+: rawNameProc.Cmdline.val)
      ∧ utf8_ValidString rawNameProc.Name.val = false
      ∧ loopBody (ProcessCollector.mk (lit "foo")) initState rawNameProc
          = Except.error { ch := [], err := LabelError.invalidUTF8 [0xff] }
      ∧ Collect (ProcessCollector.mk (lit "foo")) (Ret.ok [rawNameProc])
          = { sent := [], panic := some (LabelError.invalidUTF8 [0xff]) } := by
  refine ⟨by decide, by decide, ?_, by decide⟩
  exact @loopBody_name_invalid (ProcessCollector.mk (lit "foo")) rawNameProc
    (by decide) (by decide) initState

/-- C4, the code at a failing input: the argument list of the matched process
`rawArgProc` was retrieved and has two entries, but `Collect` sends one `process_arg`
point only: building the point of the second argument, which is not valid UTF-8,
panics. -/
theorem Collect_arg_points_arg_not_utf8 :
    Matches (ProcessCollector.mk (lit "foo")) rawArgProc
      ∧ rawArgProc.CmdlineSlice.err = none
      ∧ rawArgProc.CmdlineSlice.val.length = 2
      ∧ Collect (ProcessCollector.mk (lit "foo")) (Ret.ok [rawArgProc])
          = { sent := [{ desc := processExists, valueType := ValueType.GaugeValue,
                         value := Float64.finite 1, labelValues := [lit "45", lit "foo"] },
                       { desc := processArg, valueType := ValueType.GaugeValue,
                         value := Float64.finite 1,
                         labelValues := [lit "45", lit "foo", lit "0", lit "foo"] }]
              panic := some (LabelError.invalidUTF8 [0xff]) }
      ∧ ((Collect (ProcessCollector.mk (lit "foo")) (Ret.ok [rawArgProc])).sent.filter
            (fun m => decide (m.desc = processArg))).length = 1 := by
  refine ⟨by decide, rfl, rfl, by decide, by decide⟩

/-- C5, the code at a failing input: `rawBareProc` matches the filter `foo` and its CPU,
memory and argument retrievals fail; `Collect` does not emit its `process_exists` point,
nor any point: building that point panics, because the name is not valid UTF-8. -/
theorem Collect_failed_retrievals_name_not_utf8 :
    Matches (ProcessCollector.mk (lit "foo")) rawBareProc
      ∧ rawBareProc.CPUPercent.err ≠ none
      ∧ rawBareProc.MemoryInfo.err ≠ none
      ∧ rawBareProc.CmdlineSlice.err ≠ none
      ∧ Collect (ProcessCollector.mk (lit "foo")) (Ret.ok [rawBareProc])
          = { sent := [], panic := some (LabelError.invalidUTF8 [0xff]) }
      ∧ (∀ m ∈ (Collect (ProcessCollector.mk (lit "foo")) (Ret.ok [rawBareProc])).sent,
          m.desc ≠ processExists) := by
  refine ⟨by decide, by decide, by decide, by decide, by decide, by decide⟩

/-- C6, the code at a failing input: the CPU and memory retrievals of the matched process
`rawNameProc` succeed, but `Collect` emits neither a `process_cpu_usage` nor a
`process_memory_usage_bytes` point for it: the round panics before, while building the
`process_exists` point, because the name is not valid UTF-8. -/
theorem Collect_cpu_memory_points_name_not_utf8 :
    Matches (ProcessCollector.mk (lit "foo")) rawNameProc
      ∧ rawNameProc.CPUPercent.err = none
      ∧ rawNameProc.MemoryInfo.err = none
      ∧ (Collect (ProcessCollector.mk (lit "foo")) (Ret.ok [fooProc, rawNameProc])).panic
          = some (LabelError.invalidUTF8 [0xff])
      ∧ (∀ m ∈ (Collect (ProcessCollector.mk (lit "foo"))
            (Ret.ok [fooProc, rawNameProc])).sent,
          m.label "pid" ≠ some (Sprintf_d rawNameProc.Pid)) := by
  refine ⟨by decide, rfl, rfl, by decide, by decide⟩

/-- C7: when the enumeration of processes fails, `Collect` sends no point at all (no
per-process point and no `process_exists` 0 point) and returns, whatever the filter. -/
theorem Collect_enumeration_failed (c : ProcessCollector) (processes : Ret (List Process))
    (herr : processes.err ≠ none) :
    Collect c processes = { sent := [], panic := none } := by
  unfold Collect
  cases h : processes.err with
  | none => exact absurd h herr
  | some e => simp

theorem Collect_enumeration_failed_witness :
    (Ret.fail [barfooProc] "open /proc: permission denied").err ≠ none
      ∧ Collect (ProcessCollector.mk (lit "foo"))
          (Ret.fail [barfooProc] "open /proc: permission denied")
        = { sent := [], panic := none } :=
  ⟨by decide,
    Collect_enumeration_failed (ProcessCollector.mk (lit "foo"))
      (Ret.fail [barfooProc] "open /proc: permission denied") (by decide)⟩

/-- C8: a process whose command line cannot be retrieved is skipped and the scan goes on:
`Collect` ends as it ends for the enumeration with every such process removed, with the
same points, and taking one such process out of any position of the enumeration leaves
the outcome as it is. -/
theorem Collect_skips_failed_cmdline (c : ProcessCollector) (processes : Ret (List Process)) :
    Collect c processes
        = Collect c { processes with
            val := processes.val.filter (fun p => decide (p.Cmdline.err = none)) }
      ∧ (∀ (pre post : List Process) (p : Process), p.Cmdline.err ≠ none →
          Collect c (Ret.ok (pre ++ p :: post)) = Collect c (Ret.ok (pre ++ post))) := by
  constructor
  · rcases processes with ⟨l, e⟩
    cases e with
    | some e => simp [Collect]
    | none =>
      apply Collect_congr
      symm
      apply foldlM_loopBody_filter
      intro p hp hm
      have : p.Cmdline.err ≠ none := by simpa using hp
      exact this hm.1
  · intro pre post p hp
    exact Collect_remove_of_not_matches (fun hm => hp hm.1) pre post

theorem Collect_skips_failed_cmdline_witness :
    goneProc.Cmdline.err ≠ none
      ∧ Collect (ProcessCollector.mk (lit "foo"))
            (Ret.ok ([barfooProc] ++ goneProc :: [fooProc]))
          = Collect (ProcessCollector.mk (lit "foo")) (Ret.ok ([barfooProc] ++ [fooProc])) :=
  ⟨by decide,
    (Collect_skips_failed_cmdline (ProcessCollector.mk (lit "foo")) (Ret.ok [])).2
      [barfooProc] [fooProc] goneProc (by decide)⟩

/-- C9, as stated, fails on a command line that gives `-process` without a value: the
value is missing, but `main` neither prints its usage line nor exits with status 1; the
flag package refuses the command line and ends the process with status 2. And with
`-process nginx -bogus` the value is not empty, but no collector is registered and no
listener is opened, the process ending with status 2 as well. -/
theorem main_flag_counterexample :
    main [lit "-process"] none
        = [Event.FlagUsage (some (FlagError.needsArgument (lit "process"))), Event.Exit 2]
      ∧ Event.Exit 1 ∉ main [lit "-process"] none
      ∧ Event.Println (lit "Usage: ./exporter -process <process_name>")
          ∉ main [lit "-process"] none
      ∧ main [lit "-process", lit "nginx", lit "-bogus"] none
        = [Event.FlagUsage (some (FlagError.notDefined (lit "bogus"))), Event.Exit 2]
      ∧ Event.MustRegister (ProcessCollector.mk (lit "nginx"))
          ∉ main [lit "-process", lit "nginx", lit "-bogus"] none := by
  refine ⟨by decide, by decide, by decide, by decide, by decide⟩

/-- C9, amended: when `flag.Parse` accepts the command line and leaves the value of
`-process` empty (the flag is not given, or given an empty value), `main` prints the usage
line and exits with status 1, and does nothing else: no collector is registered and no
listener is opened. When `flag.Parse` accepts the command line and the value is not
empty, `main` does not exit there: it registers a collector whose filter is that value,
installs the `/metrics` handler and listens on `:8081`. When `flag.Parse` does not accept
the command line, the process ends there with status 2 (with status 0 on `-h` or
`-help`), again without a collector or a listener. -/
theorem main_by_command_line :
    (∀ (args : List GoString) (serveErr : Option String),
        flag_Parse args = ParseResult.parsed (lit "") →
        main args serveErr
          = [Event.Println (lit "Usage: ./exporter -process <process_name>"), Event.Exit 1])
      ∧ (flag_Parse [] = ParseResult.parsed (lit "")
          ∧ flag_Parse [lit "-process", lit ""] = ParseResult.parsed (lit "")
          ∧ flag_Parse [lit "-process="] = ParseResult.parsed (lit ""))
      ∧ (∀ (args : List GoString) (v : GoString) (serveErr : Option String),
        flag_Parse args = ParseResult.parsed v → v ≠ lit "" →
        (∃ rest, main args serveErr
            = [Event.MustRegister { processName := v }, Event.Handle "/metrics",
               Event.Printf (lit "Starting exporter on :8081/metrics for process '" ++ v
                 ++ lit "'\n"),
               Event.ListenAndServe ":8081"] ++ rest
            ∧ (rest = [] ∨ ∃ e, rest = [Event.Fatal e]))
          ∧ Event.Exit 1 ∉ main args serveErr
          ∧ Event.Println (lit "Usage: ./exporter -process <process_name>")
              ∉ main args serveErr)
      ∧ (∀ v : GoString, flag_Parse [lit "-process", v] = ParseResult.parsed v)
      ∧ (∀ (args : List GoString) (e : FlagError) (serveErr : Option String),
        flag_Parse args = ParseResult.failed e →
        main args serveErr = [Event.FlagUsage (some e), Event.Exit 2])
      ∧ (∀ (args : List GoString) (serveErr : Option String),
        flag_Parse args = ParseResult.help →
        main args serveErr = [Event.FlagUsage none, Event.Exit 0])
      ∧ (flag_Parse [lit "-process"]
            = ParseResult.failed (FlagError.needsArgument (lit "process"))
          ∧ flag_Parse [lit "-process", lit "nginx", lit "-bogus"]
            = ParseResult.failed (FlagError.notDefined (lit "bogus"))
          ∧ flag_Parse [lit "-h"] = ParseResult.help) := by
  refine ⟨?_, ⟨by decide, by decide, by decide⟩, ?_, ?_, ?_, ?_,
    ⟨by decide, by decide, by decide⟩⟩
  · intro args serveErr h
    simp [main, h]
  · intro args v serveErr h hv
    have hmain : main args serveErr
        = [Event.MustRegister { processName := v }, Event.Handle "/metrics",
           Event.Printf (lit "Starting exporter on :8081/metrics for process '" ++ v
             ++ lit "'\n"),
           Event.ListenAndServe ":8081"]
          ++ (match serveErr with
              | some e => [Event.Fatal e]
              | none => []) := by
      simp [main, h, hv]
    cases serveErr with
    | none =>
      rw [hmain]
      exact ⟨⟨[], rfl, Or.inl rfl⟩, by simp, by simp⟩
    | some e =>
      rw [hmain]
      exact ⟨⟨[Event.Fatal e], rfl, Or.inr ⟨e, rfl⟩⟩, by simp, by simp⟩
  · intro v
    rfl
  · intro args e serveErr h
    simp [main, h]
  · intro args serveErr h
    simp [main, h]

theorem main_by_command_line_witness :
    flag_Parse [lit "-process", lit "nginx"] = ParseResult.parsed (lit "nginx")
      ∧ lit "nginx" ≠ lit ""
      ∧ Event.Exit 1 ∉ main [lit "-process", lit "nginx"] none
      ∧ main [lit "-process", lit "nginx"] none
          = [Event.MustRegister { processName := lit "nginx" }, Event.Handle "/metrics",
             Event.Printf (lit "Starting exporter on :8081/metrics for process 'nginx'\n"),
             Event.ListenAndServe ":8081"] :=
  ⟨by decide, by decide,
    (main_by_command_line.2.2.1 [lit "-process", lit "nginx"] (lit "nginx") none
      (by decide) (by decide)).2.1,
    by decide⟩

/-- C10, as stated, fails on an enumeration without a match: for the filter `foo ` and
the single process `barfoo` no process matches, so the concatenation of the blocks of
the matched processes is empty, while `Collect` emits the "not found" point. -/
theorem Collect_blocks_counterexample :
    (Ret.ok [barfooProc]).err = none
      ∧ ((Ret.ok [barfooProc]).val.filter
            (fun p => decide (Matches (ProcessCollector.mk (lit "foo ")) p))).flatMap
          (fun p => existsPoint p :: (cpuPoints p ++ memPoints p ++ argPoints p)) = []
      ∧ Collect (ProcessCollector.mk (lit "foo ")) (Ret.ok [barfooProc])
          = { sent := [notFoundPoint], panic := none }
      ∧ (Collect (ProcessCollector.mk (lit "foo ")) (Ret.ok [barfooProc])).sent
          ≠ ((Ret.ok [barfooProc]).val.filter
                (fun p => decide (Matches (ProcessCollector.mk (lit "foo ")) p))).flatMap
              (fun p => existsPoint p :: (cpuPoints p ++ memPoints p ++ argPoints p)) := by
  refine ⟨rfl, by decide, by decide, by decide⟩

/-- C10, amended: on a successful enumeration with at least one match, in which the name
and the retrieved arguments of every matched process are valid UTF-8, `Collect` returns
and its output is the concatenation, in enumeration order, of one block per matched
process (without a match it is the single "not found" point). A block is the
`process_exists` point, then the `process_cpu_usage` point if the CPU value was
retrieved, then the `process_memory_usage_bytes` point if the memory value was
retrieved, then the `process_arg` points, the one at position `i` carrying the index
`i`. Hence `Collect` over the concatenation of two such enumerations that each contain a
match is the concatenation of `Collect` over each. -/
theorem Collect_blocks_in_order (c : ProcessCollector) :
    (∀ processes : Ret (List Process), processes.err = none →
        (∃ p ∈ processes.val, Matches c p) →
        (∀ p ∈ processes.val, Matches c p → LabelsValid p) →
        Collect c processes
          = { sent := (processes.val.filter (fun p => decide (Matches c p))).flatMap
                (fun p => existsPoint p :: (cpuPoints p ++ memPoints p ++ argPoints p))
              panic := none })
      ∧ (∀ processes : Ret (List Process), processes.err = none →
        (¬ ∃ p ∈ processes.val, Matches c p) →
        Collect c processes = { sent := [notFoundPoint], panic := none })
      ∧ (∀ p : Process,
        (existsPoint p).desc = processExists
          ∧ (∀ m ∈ cpuPoints p, m.desc = processCPU)
          ∧ (∀ m ∈ memPoints p, m.desc = processMemory)
          ∧ (∀ m ∈ argPoints p, m.desc = processArg)
          ∧ (cpuPoints p).length = (if p.CPUPercent.err = none then 1 else 0)
          ∧ (memPoints p).length = (if p.MemoryInfo.err = none then 1 else 0)
          ∧ (argPoints p).length
              = (if p.CmdlineSlice.err = none then p.CmdlineSlice.val.length else 0)
          ∧ (∀ i : Nat, i < (argPoints p).length →
              ((argPoints p)[i]?).map (fun m => m.label "index")
                = some (some (Sprintf_d (Int.ofNat i)))))
      ∧ (∀ l₁ l₂ : List Process, (∃ p ∈ l₁, Matches c p) → (∃ p ∈ l₂, Matches c p) →
        (∀ p ∈ l₁ ++ l₂, Matches c p → LabelsValid p) →
        (Collect c (Ret.ok (l₁ ++ l₂))).sent
            = (Collect c (Ret.ok l₁)).sent ++ (Collect c (Ret.ok l₂)).sent
          ∧ (Collect c (Ret.ok (l₁ ++ l₂))).panic = none
          ∧ (Collect c (Ret.ok l₁)).panic = none
          ∧ (Collect c (Ret.ok l₂)).panic = none) := by
  refine ⟨?_, ?_, ?_, ?_⟩
  · intro processes herr hex hv
    exact Collect_of_match herr hex hv
  · intro processes herr hno
    exact Collect_of_no_match herr (fun p hp hm => hno ⟨p, hp, hm⟩)
  · intro p
    refine ⟨rfl, fun m => desc_of_mem_cpuPoints, fun m => desc_of_mem_memPoints,
      fun m => desc_of_mem_argPoints, ?_, ?_, ?_, ?_⟩
    · unfold cpuPoints
      split <;> rfl
    · unfold memPoints
      split <;> rfl
    · unfold argPoints
      split
      · rw [List.length_mapIdx]
      · rfl
    · intro i hi
      unfold argPoints at hi ⊢
      split at hi
      · rename_i hargs
        rw [if_pos hargs]
        rw [List.length_mapIdx] at hi
        rw [List.getElem?_mapIdx, List.getElem?_eq_getElem hi]
        rfl
      · simp at hi
  · intro l₁ l₂ h₁ h₂ hv
    have h₁₂ : ∃ p ∈ (Ret.ok (l₁ ++ l₂)).val, Matches c p := by
      obtain ⟨p, hp, hm⟩ := h₁
      exact ⟨p, List.mem_append_left _ hp, hm⟩
    have hv₁ : ∀ p ∈ (Ret.ok l₁).val, Matches c p → LabelsValid p :=
      fun p hp => hv p (List.mem_append_left _ hp)
    have hv₂ : ∀ p ∈ (Ret.ok l₂).val, Matches c p → LabelsValid p :=
      fun p hp => hv p (List.mem_append_right _ hp)
    rw [@Collect_of_match c (Ret.ok (l₁ ++ l₂)) rfl h₁₂ hv,
      @Collect_of_match c (Ret.ok l₁) rfl h₁ hv₁,
      @Collect_of_match c (Ret.ok l₂) rfl h₂ hv₂]
    refine ⟨?_, rfl, rfl, rfl⟩
    simp [Ret.ok, List.filter_append, List.flatMap_append]

theorem Collect_blocks_in_order_witness :
    (∃ p ∈ [barfooProc, fooProc], Matches (ProcessCollector.mk (lit "foo")) p)
      ∧ (∃ p ∈ [goneProc, bareProc], Matches (ProcessCollector.mk (lit "foo")) p)
      ∧ (∀ p ∈ [barfooProc, fooProc] ++ [goneProc, bareProc],
          Matches (ProcessCollector.mk (lit "foo")) p → LabelsValid p)
      ∧ (Collect (ProcessCollector.mk (lit "foo"))
            (Ret.ok ([barfooProc, fooProc] ++ [goneProc, bareProc]))).sent
          = (Collect (ProcessCollector.mk (lit "foo")) (Ret.ok [barfooProc, fooProc])).sent
            ++ (Collect (ProcessCollector.mk (lit "foo")) (Ret.ok [goneProc, bareProc])).sent :=
  ⟨by decide, by decide, by decide,
    ((Collect_blocks_in_order (ProcessCollector.mk (lit "foo"))).2.2.2
      [barfooProc, fooProc] [goneProc, bareProc] (by decide) (by decide) (by decide)).1⟩

end ProcCheck
